import Mathlib

/-!
# Verification of the `AlertManager` facade (barchart/alerts-client-js)

A shallow embedding, in Lean 4, of the core logic of
`src/lib/AlertManager.js`: the subscription multiplexer, the connection
manager, the push-notification dispatch, the alert-resolution pipeline of
`createAlert`, the client-side post-filters of `retrieveAlerts`, and the
pure `getPropertyTree` transform.  Stateful code is modelled by explicit
state passing plus traces of the calls issued to the transport adapter;
JavaScript promises are modelled by the order of events in such traces.
-/

namespace AlertsClient

/-! ## Subscription multiplexer (AlertManager.subscribeAlerts)

One subscription-map entry, for a fixed `(user_id, alert_system)` key.  The
source keeps `subscribers : number` and `implementationBinding` (the handle
returned by `adapter.subscribeAlerts`); `hasBinding` records whether an
un-disposed underlying channel handle exists. -/

/-- State of one subscription-map entry (`AlertManager.js` lines 206-226):
the reference count and whether a live underlying channel handle exists. -/
structure EntryState where
  subscribers : Nat
  hasBinding : Bool
deriving DecidableEq, Repr

/-- Calls reaching the underlying channel: `adapter.subscribeAlerts(query)`
and `implementationBinding.dispose()`. -/
inductive ChannelCall where
  | subscribeAlerts
  | bindingDispose
deriving DecidableEq, Repr

/-- An operation against the entry: one `subscribeAlerts` call registering
callbacks, or the disposal of one handle returned by such a call. -/
inductive SubOp where
  | sub
  | disp
deriving DecidableEq, Repr

/-- One step of the multiplexer.  `sub` mirrors lines 222-226: if the
subscriber count is zero, call `adapter.subscribeAlerts` and store the
binding, then increment the count.  `disp` mirrors lines 233-238: decrement
the count and, if it reached zero, dispose the binding. -/
def subStep (e : EntryState) : SubOp → EntryState × List ChannelCall
  | .sub =>
      if e.subscribers = 0 then
        (⟨e.subscribers + 1, true⟩, [.subscribeAlerts])
      else
        (⟨e.subscribers + 1, e.hasBinding⟩, [])
  | .disp =>
      let n := e.subscribers - 1
      if n = 0 then
        (⟨n, false⟩, [.bindingDispose])
      else
        (⟨n, e.hasBinding⟩, [])

/-- Run a sequence of operations, accumulating the channel calls. -/
def runOps (e : EntryState) : List SubOp → EntryState × List ChannelCall
  | [] => (e, [])
  | op :: rest =>
      let s := subStep e op
      let r := runOps s.1 rest
      (r.1, s.2 ++ r.2)

/-- All states passed through while running a sequence of operations
(initial state included). -/
def statesAlong (e : EntryState) : List SubOp → List EntryState
  | [] => [e]
  | op :: rest => e :: statesAlong (subStep e op).1 rest

/-- A fresh entry: zero subscribers, no underlying channel handle
(lines 211-217 of the source). -/
def freshEntry : EntryState := ⟨0, false⟩

/-- The underlying push subscription exists iff the subscriber count is
positive. -/
def EntryInv (e : EntryState) : Prop := e.hasBinding = true ↔ 0 < e.subscribers

theorem runOps_append (e : EntryState) (l₁ l₂ : List SubOp) :
    runOps e (l₁ ++ l₂) =
      ((runOps (runOps e l₁).1 l₂).1,
        (runOps e l₁).2 ++ (runOps (runOps e l₁).1 l₂).2) := by
  induction l₁ generalizing e with
  | nil => simp [runOps]
  | cons op rest ih => simp [runOps, ih, List.append_assoc]

theorem statesAlong_ne_nil (e : EntryState) (ops : List SubOp) :
    statesAlong e ops ≠ [] := by
  cases ops <;> simp [statesAlong]

theorem statesAlong_append (e : EntryState) (l₁ l₂ : List SubOp) :
    statesAlong e (l₁ ++ l₂) =
      (statesAlong e l₁).dropLast ++ statesAlong (runOps e l₁).1 l₂ := by
  induction l₁ generalizing e with
  | nil => simp [statesAlong, runOps]
  | cons op rest ih =>
      have h1 : (op :: rest) ++ l₂ = op :: (rest ++ l₂) := rfl
      rw [h1]
      show e :: statesAlong (subStep e op).1 (rest ++ l₂) = _
      rw [ih]
      rw [show statesAlong e (op :: rest)
            = e :: statesAlong (subStep e op).1 rest from rfl]
      rw [List.dropLast_cons_of_ne_nil (statesAlong_ne_nil _ _)]
      rw [show (runOps e (op :: rest)).1
            = (runOps (subStep e op).1 rest).1 from rfl]
      simp

theorem runOps_subs (k : Nat) (m : Nat) :
    runOps ⟨m + 1, true⟩ (List.replicate k .sub) = (⟨m + 1 + k, true⟩, []) := by
  induction k generalizing m with
  | zero => simp [runOps]
  | succ k ih =>
      simp only [List.replicate_succ, runOps, subStep]
      rw [if_neg (by omega)]
      rw [ih (m + 1)]
      have harith : m + 1 + 1 + k = m + 1 + (k + 1) := by omega
      rw [harith]
      simp

theorem runOps_subs_from_fresh (n : Nat) (hn : 0 < n) :
    runOps freshEntry (List.replicate n .sub) = (⟨n, true⟩, [.subscribeAlerts]) := by
  obtain ⟨k, rfl⟩ : ∃ k, n = k + 1 := ⟨n - 1, by omega⟩
  rw [show k + 1 = 1 + k by omega, List.replicate_add]
  rw [runOps_append]
  simp [runOps, subStep, freshEntry, runOps_subs k 0]

theorem runOps_disps (n : Nat) (hn : 0 < n) :
    runOps ⟨n, true⟩ (List.replicate n .disp) = (⟨0, false⟩, [.bindingDispose]) := by
  induction n with
  | zero => omega
  | succ k ih =>
      simp only [List.replicate_succ, runOps, subStep]
      cases k with
      | zero => simp [runOps]
      | succ j =>
          rw [if_neg (by omega)]
          simpa using ih (by omega)

theorem entryInv_step (e : EntryState) (op : SubOp) (h : EntryInv e) :
    EntryInv (subStep e op).1 := by
  obtain ⟨s, b⟩ := e
  simp only [EntryInv] at h
  cases op
  · simp only [subStep]
    split
    · simp [EntryInv]
    · next hs =>
        simp only [EntryInv]
        constructor
        · intro _
          omega
        · intro _
          exact h.mpr (by omega)
  · simp only [subStep]
    split
    · next hz =>
        simp only [EntryInv]
        constructor
        · intro hcontra
          simp at hcontra
        · intro hpos
          exact absurd hpos (by omega)
    · next hn =>
        simp only [EntryInv]
        constructor
        · intro _
          omega
        · intro _
          exact h.mpr (by omega)

theorem entryInv_statesAlong (e : EntryState) (ops : List SubOp)
    (h : EntryInv e) : ∀ s ∈ statesAlong e ops, EntryInv s := by
  induction ops generalizing e with
  | nil =>
      intro s hs
      simp only [statesAlong, List.mem_singleton] at hs
      exact hs ▸ h
  | cons op rest ih =>
      intro s hs
      simp only [statesAlong, List.mem_cons] at hs
      rcases hs with rfl | hs
      · exact h
      · exact ih _ (entryInv_step e op h) s hs

/-- C1.  Starting from a fresh entry, `n ≥ 1` subscribe calls followed by the
disposal of each of the `n` returned handles produce exactly one
`adapter.subscribeAlerts` call and exactly one disposal of the underlying
channel handle, and every state passed through satisfies: the underlying
handle exists iff the subscriber count is positive. -/
theorem subscribeAlerts_refcount (n : Nat) (hn : 0 < n) :
    (runOps freshEntry (List.replicate n .sub ++ List.replicate n .disp)).2 =
        [.subscribeAlerts, .bindingDispose] ∧
      ∀ e ∈ statesAlong freshEntry
          (List.replicate n .sub ++ List.replicate n .disp), EntryInv e := by
  constructor
  · rw [runOps_append, runOps_subs_from_fresh n hn]
    rw [runOps_disps n hn]
    rfl
  · exact entryInv_statesAlong _ _ (by simp [EntryInv, freshEntry])

/-- Witness for `subscribeAlerts_refcount` at `n = 2`. -/
theorem subscribeAlerts_refcount_witness :
    (runOps freshEntry
        (List.replicate 2 .sub ++ List.replicate 2 .disp)).2 =
        [.subscribeAlerts, .bindingDispose] ∧
      ∀ e ∈ statesAlong freshEntry
          (List.replicate 2 .sub ++ List.replicate 2 .disp), EntryInv e :=
  subscribeAlerts_refcount 2 (by decide)

/-! ## Push-notification dispatch (getMutationEvents / onAlertMutated)

The two-level subscription map is modelled as an association list keyed by
`user_id` and then by `alert_system`, mirroring the two nested JavaScript
objects.  Registered callbacks are identified by natural numbers; firing an
event invokes them in registration order. -/

/-- The callbacks registered against one subscription-map entry, one list
per notification kind (lines 211-217 of the source). -/
structure CallbackEntry where
  createCbs : List Nat
  changeCbs : List Nat
  deleteCbs : List Nat
  triggerCbs : List Nat
deriving DecidableEq, Repr

/-- An inbound alert payload: the fields of an alert the dispatch logic
reads. -/
structure AlertPayload where
  alert_id : String
  user_id : String
  alert_system : String
  alert_state : Option String
deriving DecidableEq, Repr

/-- Inner map: `alert_system → entry`. -/
abbrev SystemMap := List (String × CallbackEntry)

/-- Outer map: `user_id → inner map`. -/
abbrev SubscriptionMap := List (String × SystemMap)

/-- Association-list lookup, mirroring `hasOwnProperty` followed by
indexing on a JavaScript object. -/
def alistFind (k : String) : List (String × α) → Option α
  | [] => none
  | (k', v) :: rest => if k' = k then some v else alistFind k rest

/-- `getMutationEvents` (source lines 1079-1094): extract `user_id` and
`alert_system` from the payload and look the entry up in the two-level
map; `none` when either level misses. -/
def getMutationEvents (map : SubscriptionMap) (alert : AlertPayload) :
    Option CallbackEntry :=
  match alistFind alert.user_id map with
  | none => none
  | some systemMap => alistFind alert.alert_system systemMap

/-- `onAlertMutated` (source lines 1122-1132): a falsy payload is ignored;
otherwise the entry for the payload's key is looked up and, when present,
its change event is fired — delivering the payload to every callback
registered for the change kind, in registration order.  The result is the
list of (callback, delivered payload) invocations; an absent entry yields
no invocations and no error. -/
def onAlertMutated (map : SubscriptionMap) (alert : Option AlertPayload) :
    List (Nat × AlertPayload) :=
  match alert with
  | none => []
  | some a =>
      match getMutationEvents map a with
      | none => []
      | some entry => entry.changeCbs.map (fun cb => (cb, a))

/-- C5.  Dispatch routes by exactly the payload's `(user_id, alert_system)`
key: when no entry exists for that key the notification is dropped silently
(no callback runs, no error is produced — `onAlertMutated` is total); when
an entry exists, every change callback of that entry — and only those —
receives the payload, in registration order. -/
theorem dispatch_routes_by_key (map : SubscriptionMap) (a : AlertPayload) :
    (getMutationEvents map a = none → onAlertMutated map (some a) = []) ∧
      (∀ entry, getMutationEvents map a = some entry →
        onAlertMutated map (some a) = entry.changeCbs.map (fun cb => (cb, a))) ∧
      (∀ cb p, (cb, p) ∈ onAlertMutated map (some a) →
        p = a ∧ ∃ entry, getMutationEvents map a = some entry ∧
          cb ∈ entry.changeCbs) := by
  refine ⟨?_, ?_, ?_⟩
  · intro h
    simp [onAlertMutated, h]
  · intro entry h
    simp [onAlertMutated, h]
  · intro cb p hmem
    simp only [onAlertMutated] at hmem
    cases hlookup : getMutationEvents map a with
    | none =>
        rw [hlookup] at hmem
        simp at hmem
    | some entry =>
        rw [hlookup] at hmem
        simp only [List.mem_map] at hmem
        obtain ⟨c, hc, heq⟩ := hmem
        cases heq
        exact ⟨rfl, entry, rfl, hc⟩

/-- Witness for `dispatch_routes_by_key`: a concrete map with one entry for
`("me", "barchart.com")` delivers a matching payload to exactly its change
callbacks, and a payload under a different key is dropped. -/
theorem dispatch_routes_by_key_witness :
    onAlertMutated
        [("me", [("barchart.com", ⟨[1], [2, 3], [4], [5]⟩)])]
        (some ⟨"a1", "me", "barchart.com", none⟩) =
      [(2, ⟨"a1", "me", "barchart.com", none⟩),
        (3, ⟨"a1", "me", "barchart.com", none⟩)] ∧
    onAlertMutated
        [("me", [("barchart.com", ⟨[1], [2, 3], [4], [5]⟩)])]
        (some ⟨"a1", "other", "barchart.com", none⟩) = [] := by
  constructor
  · exact (dispatch_routes_by_key
        [("me", [("barchart.com", ⟨[1], [2, 3], [4], [5]⟩)])]
        ⟨"a1", "me", "barchart.com", none⟩).2.1 ⟨[1], [2, 3], [4], [5]⟩ rfl
  · exact (dispatch_routes_by_key
        [("me", [("barchart.com", ⟨[1], [2, 3], [4], [5]⟩)])]
        ⟨"a1", "other", "barchart.com", none⟩).1 rfl

/-! ## Optimistic state-change notifications (enableAlert / disableAlert) -/

/-- An event in the trace of `enableAlert`/`disableAlert`: the local firing
of change callbacks (through `onAlertMutated`, the dispatch path used for
server-pushed changes) or the adapter call `updateAlert({alert_id,
alert_state})`. -/
inductive MutationEvent where
  | localChange (invocations : List (Nat × AlertPayload))
  | adapterUpdateAlert (alert_id : String) (alert_state : String)
deriving DecidableEq, Repr

/-- `enableAlert` (source lines 391-405): clone the alert, set its state to
`"Starting"`, fire the clone through `onAlertMutated`, then call
`adapter.updateAlert`.  The returned trace lists the events in program
order. -/
def enableAlert (map : SubscriptionMap) (alert : AlertPayload) :
    List MutationEvent :=
  let clone : AlertPayload := { alert with alert_state := some "Starting" }
  [.localChange (onAlertMutated map (some clone)),
    .adapterUpdateAlert alert.alert_id "Starting"]

/-- `disableAlert` (source lines 434-448): identical, with `"Stopping"`. -/
def disableAlert (map : SubscriptionMap) (alert : AlertPayload) :
    List MutationEvent :=
  let clone : AlertPayload := { alert with alert_state := some "Stopping" }
  [.localChange (onAlertMutated map (some clone)),
    .adapterUpdateAlert alert.alert_id "Stopping"]

/-- C8.  `enableAlert` fires a local change notification carrying state
`"Starting"` (and `disableAlert` one carrying `"Stopping"`) through
`onAlertMutated` — the same dispatch path server-pushed changes use — and
this firing precedes the adapter's `updateAlert` call in the trace, hence
happens before that call can resolve.  The synthesized payload carries the
transitional state (`"Starting"`/`"Stopping"`), not the target final state,
so it never asserts the transition completed. -/
theorem optimistic_notification_precedes_update
    (map : SubscriptionMap) (alert : AlertPayload) :
    enableAlert map alert =
        [.localChange (onAlertMutated map
            (some { alert with alert_state := some "Starting" })),
          .adapterUpdateAlert alert.alert_id "Starting"] ∧
      disableAlert map alert =
        [.localChange (onAlertMutated map
            (some { alert with alert_state := some "Stopping" })),
          .adapterUpdateAlert alert.alert_id "Stopping"] ∧
      ((enableAlert map alert).take 1).all
          (fun ev => match ev with
            | .localChange _ => true
            | .adapterUpdateAlert _ _ => false) = true := by
  refine ⟨rfl, rfl, rfl⟩

/-! ## Connection manager (AlertManager.connect)

`_connectPromise` memoizes the connection attempt.  Promises are modelled
by identifiers; the trace records each adapter connection attempt
started. -/

/-- The timeout, in milliseconds, wrapped around `adapter.connect`
(source line 100). -/
def connectTimeoutMillis : Nat := 10000

/-- The message of the error produced when the adapter's connect does not
complete within the timeout (source line 100). -/
def connectTimeoutMessage : String :=
  "Alert service is temporarily unavailable. Please try again later."

/-- The connection-relevant state of an `AlertManager`:
`connectPromise` models `_connectPromise` (`none` = JavaScript `null`),
`nextPromiseId` supplies fresh promise identities, `disposed` the
`Disposable` state. -/
structure ManagerState where
  connectPromise : Option Nat
  nextPromiseId : Nat
  disposed : Bool
deriving DecidableEq, Repr

/-- A freshly constructed manager: `_connectPromise = null`
(source line 72). -/
def freshManager : ManagerState := ⟨none, 0, false⟩

/-- The adapter-level effect of one `connect` call. -/
inductive ConnectCall where
  | adapterConnect
deriving DecidableEq, Repr

/-- `connect` (source lines 87-117).  A disposed manager rejects.
Otherwise, when `_connectPromise` is `null` a new connection attempt is
started (one adapter connect, wrapped in the timeout) and memoized; when it
is non-null, the memoized promise is returned as-is with no new attempt.
The result carries the promise returned to the caller, the successor
state, and the adapter calls issued. -/
def connect (s : ManagerState) :
    Except String (Nat × ManagerState × List ConnectCall) :=
  if s.disposed then
    .error "Unable to perform connect, the alert manager has been disposed"
  else
    match s.connectPromise with
    | some p => .ok (p, s, [])
    | none =>
        .ok (s.nextPromiseId,
          { s with connectPromise := some s.nextPromiseId,
                   nextPromiseId := s.nextPromiseId + 1 },
          [.adapterConnect])

/-- How a pending connection attempt settles: the adapter connected, the
adapter failed with a message, or the timeout of `connectTimeoutMillis`
milliseconds elapsed first. -/
inductive ConnectOutcome where
  | success
  | failure (message : String)
  | timedOut
deriving DecidableEq, Repr

/-- Settling the pending connection attempt (source lines 103-112).  On
success the memoized promise is kept and resolves with the manager; on any
failure — adapter error or timeout — the `catch` handler clears
`_connectPromise` and only then rethrows, the timeout surfacing as an
error with `connectTimeoutMessage`. -/
def settleConnect (s : ManagerState) (o : ConnectOutcome) :
    ManagerState × Except String Unit :=
  match o with
  | .success => (s, .ok ())
  | .failure message => ({ s with connectPromise := none }, .error message)
  | .timedOut => ({ s with connectPromise := none },
      .error connectTimeoutMessage)

/-- C3.  `connect` is idempotent with respect to an in-flight or completed
attempt: whenever `_connectPromise` is memoized, a further `connect` call
returns exactly the memoized promise, leaves the state unchanged, and
starts no adapter connection attempt; and from a fresh (unmemoized,
undisposed) state, a first call followed by a second yields the same
promise for both callers with exactly one adapter connection attempt in
total. -/
theorem connect_idempotent (s : ManagerState) :
    (∀ p, s.disposed = false → s.connectPromise = some p →
        connect s = .ok (p, s, [])) ∧
      (s.disposed = false → s.connectPromise = none →
        ∃ p s', connect s = .ok (p, s', [.adapterConnect]) ∧
          connect s' = .ok (p, s', []) ∧
          s'.connectPromise = some p) := by
  constructor
  · intro p hd hp
    simp [connect, hd, hp]
  · intro hd hp
    refine ⟨s.nextPromiseId,
      { s with connectPromise := some s.nextPromiseId,
               nextPromiseId := s.nextPromiseId + 1 }, ?_, ?_, rfl⟩
    · simp [connect, hd, hp]
    · simp [connect, hd]

/-- Witness for `connect_idempotent` at the fresh manager state. -/
theorem connect_idempotent_witness :
    connect freshManager = .ok (0, ⟨some 0, 1, false⟩, [.adapterConnect]) ∧
      connect ⟨some 0, 1, false⟩ = .ok (0, ⟨some 0, 1, false⟩, []) := by
  refine ⟨rfl, ?_⟩
  exact (connect_idempotent ⟨some 0, 1, false⟩).1 0 rfl rfl

/-- C4.  Whenever a connection attempt fails — adapter failure or the
explicit `connectTimeoutMillis = 10000` millisecond timeout, the latter
failing with `connectTimeoutMessage` — the memoized `_connectPromise` is
cleared in the very state in which the error is delivered, so a subsequent
`connect` on that state starts a fresh adapter connection attempt. -/
theorem connect_failure_clears_memo (s : ManagerState) (o : ConnectOutcome) :
    (o ≠ .success →
        (settleConnect s o).1.connectPromise = none ∧
        (∃ e, (settleConnect s o).2 = .error e) ∧
        (o = .timedOut → (settleConnect s o).2 =
          .error connectTimeoutMessage) ∧
        ((settleConnect s o).1.disposed = false →
          ∃ p s', connect (settleConnect s o).1 =
            .ok (p, s', [.adapterConnect]))) ∧
      connectTimeoutMillis = 10000 := by
  constructor
  · intro ho
    have hclear : (settleConnect s o).1.connectPromise = none := by
      cases o with
      | success => exact absurd rfl ho
      | failure m => rfl
      | timedOut => rfl
    refine ⟨hclear, ?_, ?_, ?_⟩
    · cases o with
      | success => exact absurd rfl ho
      | failure m => exact ⟨m, rfl⟩
      | timedOut => exact ⟨connectTimeoutMessage, rfl⟩
    · intro hto
      subst hto
      rfl
    · intro hd
      refine ⟨(settleConnect s o).1.nextPromiseId,
        { (settleConnect s o).1 with
            connectPromise := some (settleConnect s o).1.nextPromiseId,
            nextPromiseId := (settleConnect s o).1.nextPromiseId + 1 }, ?_⟩
      simp [connect, hd, hclear]
  · rfl

/-- Witness for `connect_failure_clears_memo`: a timed-out attempt on a
memoized state clears the memo, fails with the timeout message, and the
next `connect` starts a fresh attempt. -/
theorem connect_failure_clears_memo_witness :
    (settleConnect ⟨some 0, 1, false⟩ .timedOut).1.connectPromise = none ∧
      (settleConnect ⟨some 0, 1, false⟩ .timedOut).2 =
        .error connectTimeoutMessage ∧
      ∃ p s', connect (settleConnect ⟨some 0, 1, false⟩ .timedOut).1 =
        .ok (p, s', [.adapterConnect]) := by
  have h := (connect_failure_clears_memo ⟨some 0, 1, false⟩ .timedOut).1
    (by intro hcontra; cases hcontra)
  exact ⟨h.1, h.2.2.1 rfl, h.2.2.2 rfl⟩

/-! ## Alert resolution pipeline (AlertManager.createAlert)

The pipeline consumes the property and operator catalogs, deduplicated
instrument lookups, and the external price parser/formatter.  The external
routines (`valueParser`, `formatPrice`, `convertBaseCodeToUnitCode`, the
instrument validator) are dependencies of the repository, not part of it;
they appear as function-valued fields of `ResolutionEnv`, so every theorem
below holds for an arbitrary implementation of them. -/

/-- A condition operand: a JavaScript string or number. -/
inductive OperandValue where
  | str (s : String)
  | num (q : ℚ)
deriving DecidableEq, Repr

/-- A catalog property: identifier, target type, display format. -/
structure MetaProperty where
  property_id : Nat
  targetType : String
  format : String
deriving DecidableEq, Repr

/-- A catalog operator: identifier, operand type, literal-operand flag. -/
structure MetaOperator where
  operator_id : Nat
  operand_type : String
  operand_literal : Bool
deriving DecidableEq, Repr

/-- The property reference inside a condition: `c.property.property_id`
and `c.property.target.identifier`. -/
structure CondPropertyRef where
  property_id : Nat
  target_identifier : String
deriving DecidableEq, Repr

/-- The operator reference inside a condition: `c.operator.operator_id`,
the operand, and the two fields the pipeline adds on success. -/
structure CondOperatorRef where
  operator_id : Nat
  operand : OperandValue
  operand_display : Option OperandValue
  operand_format : Option String
deriving DecidableEq, Repr

/-- One condition of a candidate alert. -/
structure Condition where
  property : CondPropertyRef
  operator : CondOperatorRef
deriving DecidableEq, Repr

/-- A candidate alert, reduced to the part the pipeline reads and
rewrites. -/
structure CandidateAlert where
  conditions : List Condition
deriving DecidableEq, Repr

/-- An instrument returned by the lookup service. -/
structure Instrument where
  symbol : String
  unitcode : String
deriving DecidableEq, Repr

/-- The external collaborators of the pipeline: the two catalogs, the
instrument lookup (deduplicated lookups all observe the same result, so it
is a function of the symbol), the external instrument validator, and the
external price parse/format/unit-conversion routines. -/
structure ResolutionEnv where
  properties : List MetaProperty
  operators : List MetaOperator
  instruments : String → Instrument
  instrumentOk : String → Instrument → Bool
  parsePrice : OperandValue → String → Option ℚ
  formatPrice : ℚ → String → String
  baseToUnitCode : String → String

/-- Errors of the pipeline.  `validationFailed` stands for the external
structural validator throwing, `metadataMissing` for the TypeError raised
when a condition references an unknown property or operator,
`instrumentInvalid` for `validate.instrument.forCreate` throwing, and
`priceUnparseable i` for the explicit error thrown at source line 325. -/
inductive CreateError where
  | validationFailed
  | metadataMissing
  | instrumentInvalid (symbol : String)
  | priceUnparseable (index : Nat)
deriving DecidableEq, Repr

/-- The message of the error thrown at source line 325. -/
def priceErrorMessage (i : Nat) : String :=
  "Condition " ++ toString i ++ " is invalid. The price cannot be parsed."

/-- The message carried by a pipeline error, where the source fixes one. -/
def CreateError.message : CreateError → Option String
  | .priceUnparseable i => some (priceErrorMessage i)
  | _ => none

/-- The test `operandToParse.match(/^(-?)([0-9,]+)$/) !== null` of source
line 318: the whole string is an optional minus sign followed by one or
more digits or commas. -/
def matchesThousandsInteger (s : String) : Bool :=
  let body :=
    match s.data with
    | '-' :: rest => rest
    | chars => chars
  !body.isEmpty && body.all (fun ch => ch.isDigit || ch = ',')

/-- Source lines 316-320: a string operand matching the
integer-with-thousands-separators pattern has `".0"` appended before
parsing; other operands are parsed as-is. -/
def normalizeOperand : OperandValue → OperandValue
  | .str s => if matchesThousandsInteger s then .str (s ++ ".0") else .str s
  | .num q => .num q

/-- Resolution of the condition at 0-indexed position `i` (source lines
299-338): find the condition's property and operator in the catalogs; for
a symbol-targeted property, observe the instrument lookup, validate the
instrument, and — when the property displays as a price and the operator
takes a literal numeric operand — parse the normalized operand, rejecting
with the indexed error when the parse yields no number and otherwise
recording the three operand representations. -/
def resolveCondition (env : ResolutionEnv) (i : Nat) (c : Condition) :
    Except CreateError Condition :=
  match env.properties.find? (fun p => p.property_id = c.property.property_id),
      env.operators.find? (fun o => o.operator_id = c.operator.operator_id) with
  | some property, some operator =>
      if property.targetType = "symbol" then
        let symbol := c.property.target_identifier
        let instrument := env.instruments symbol
        let unitcode := env.baseToUnitCode instrument.unitcode
        if env.instrumentOk symbol instrument then
          if property.format = "price" ∧ operator.operand_type = "number"
              ∧ operator.operand_literal then
            match env.parsePrice (normalizeOperand c.operator.operand) unitcode with
            | some price =>
                .ok { c with operator :=
                  { c.operator with
                      operand_display := some c.operator.operand,
                      operand_format := some (env.formatPrice price unitcode),
                      operand := .num price } }
            | none => .error (.priceUnparseable i)
          else
            .ok c
        else
          .error (.instrumentInvalid symbol)
      else
        .ok c
  | _, _ => .error .metadataMissing

/-- Resolve the conditions in order, numbering them from `start`; the
first failure aborts (the join of `Promise.all` rejects). -/
def resolveConditionsFrom (env : ResolutionEnv) :
    Nat → List Condition → Except CreateError (List Condition)
  | _, [] => .ok []
  | i, c :: rest =>
      match resolveCondition env i c with
      | .ok c' =>
          match resolveConditionsFrom env (i + 1) rest with
          | .ok rest' => .ok (c' :: rest')
          | .error e => .error e
      | .error e => .error e

/-- Resolve all conditions of an alert, 0-indexed. -/
def resolveConditions (env : ResolutionEnv) (conds : List Condition) :
    Except CreateError (List Condition) :=
  resolveConditionsFrom env 0 conds

/-- Does every condition reference a property and an operator present in
the catalogs?  Mirrors the two reduces of source lines 269-283, which
throw otherwise. -/
def metadataPresent (env : ResolutionEnv) (conds : List Condition) : Bool :=
  conds.all (fun c =>
    (env.properties.find? (fun p => p.property_id = c.property.property_id)).isSome
      && (env.operators.find? (fun o => o.operator_id = c.operator.operator_id)).isSome)

/-- The symbol of a condition whose catalog property has target type
`"symbol"` (the guard of source lines 288-289), `none` otherwise. -/
def symbolOf (env : ResolutionEnv) (c : Condition) : Option String :=
  match env.properties.find? (fun p => p.property_id = c.property.property_id) with
  | some property =>
      if property.targetType = "symbol" then
        some c.property.target_identifier
      else
        none
  | none => none

/-- The symbols of the symbol-targeted conditions, in condition order,
with repetitions. -/
def conditionSymbols (env : ResolutionEnv) (conds : List Condition) :
    List String :=
  conds.filterMap (symbolOf env)

/-- One step of the instrument-map construction of source lines 285-297:
a symbol-targeted condition whose symbol is not yet a key of the map
starts one lookup and adds the key. -/
def lookupFold (env : ResolutionEnv) (acc : List String) (c : Condition) :
    List String :=
  match symbolOf env c with
  | some symbol =>
      if symbol ∉ acc then acc ++ [symbol] else acc
  | none => acc

/-- The instrument-map construction of source lines 285-297: walk the
conditions and, for each symbol-targeted one whose symbol is not yet a key
of the map, start one lookup.  The result lists the symbols looked up, in
first-occurrence order. -/
def instrumentLookupKeys (env : ResolutionEnv) (conds : List Condition) :
    List String :=
  conds.foldl (lookupFold env) []

/-- Calls issued to external services during `createAlert`. -/
inductive CreateCall where
  | getProperties
  | getOperators
  | lookupInstrument (symbol : String)
  | createAlert (alert : CandidateAlert)
deriving DecidableEq, Repr

/-- `createAlert` (source lines 254-342): structural validation, then the
two catalog fetches, then one instrument lookup per distinct symbol, then
per-condition resolution joined all-or-nothing; only when every condition
resolved is `adapter.createAlert` invoked, with the rewritten alert.
`validationOk` stands for the verdict of the external
`validate.alert.forCreate`. -/
def createAlert (env : ResolutionEnv) (validationOk : Bool)
    (a : CandidateAlert) : Except CreateError CandidateAlert × List CreateCall :=
  if !validationOk then
    (.error .validationFailed, [])
  else
    if !metadataPresent env a.conditions then
      (.error .metadataMissing, [.getProperties, .getOperators])
    else
      let lookupCalls :=
        (instrumentLookupKeys env a.conditions).map CreateCall.lookupInstrument
      match resolveConditions env a.conditions with
      | .ok conds' =>
          (.ok ⟨conds'⟩,
            [.getProperties, .getOperators] ++ lookupCalls
              ++ [.createAlert ⟨conds'⟩])
      | .error e =>
          (.error e, [.getProperties, .getOperators] ++ lookupCalls)

/-- C6.  For a condition whose resolved property targets a symbol and
displays as a price and whose resolved operator takes a literal numeric
operand (the instrument having validated): a string operand matching the
integer-with-thousands-separators pattern gets a zero decimal fraction
appended before parsing; a failed parse rejects the condition with the
error naming its 0-indexed position; a successful parse yields the
condition with `operand_display` the original input, `operand_format` the
canonically formatted string, and `operand` the parsed number. -/
theorem resolveCondition_price_operand (env : ResolutionEnv) (i : Nat)
    (c : Condition) (property : MetaProperty) (operator : MetaOperator)
    (hprop : env.properties.find?
        (fun p => p.property_id = c.property.property_id) = some property)
    (hop : env.operators.find?
        (fun o => o.operator_id = c.operator.operator_id) = some operator)
    (hsym : property.targetType = "symbol")
    (hinst : env.instrumentOk c.property.target_identifier
        (env.instruments c.property.target_identifier) = true)
    (hfmt : property.format = "price")
    (hnum : operator.operand_type = "number")
    (hlit : operator.operand_literal = true) :
    (∀ s, c.operator.operand = .str s → matchesThousandsInteger s = true →
        normalizeOperand c.operator.operand = .str (s ++ ".0")) ∧
      (env.parsePrice (normalizeOperand c.operator.operand)
            (env.baseToUnitCode
              (env.instruments c.property.target_identifier).unitcode) = none →
        resolveCondition env i c = .error (.priceUnparseable i) ∧
          (CreateError.priceUnparseable i).message =
            some (priceErrorMessage i)) ∧
      (∀ price, env.parsePrice (normalizeOperand c.operator.operand)
            (env.baseToUnitCode
              (env.instruments c.property.target_identifier).unitcode)
              = some price →
        resolveCondition env i c = .ok
          { c with operator :=
            { c.operator with
                operand_display := some c.operator.operand,
                operand_format := some (env.formatPrice price
                  (env.baseToUnitCode
                    (env.instruments c.property.target_identifier).unitcode)),
                operand := .num price } }) := by
  refine ⟨?_, ?_, ?_⟩
  · intro s hs hm
    rw [hs]
    simp [normalizeOperand, hm]
  · intro hparse
    refine ⟨?_, rfl⟩
    simp [resolveCondition, hprop, hop, hsym, hinst, hfmt, hnum, hlit, hparse]
  · intro price hparse
    simp [resolveCondition, hprop, hop, hsym, hinst, hfmt, hnum, hlit, hparse]

/-- Witness for `resolveCondition_price_operand`: a concrete environment
where the operand `"1,234"` is normalized to `"1,234.0"` and parses to
`1234`, producing the three operand representations. -/
theorem resolveCondition_price_operand_witness :
    resolveCondition
        ⟨[⟨1, "symbol", "price"⟩], [⟨2, "number", true⟩],
          fun _ => ⟨"AAPL", "8"⟩, fun _ _ => true,
          fun v _ => match v with
            | .str "1,234.0" => some 1234
            | _ => none,
          fun q _ => toString q.num, fun u => u⟩
        0
        ⟨⟨1, "AAPL"⟩, ⟨2, .str "1,234", none, none⟩⟩ =
      .ok ⟨⟨1, "AAPL"⟩,
        ⟨2, .num 1234, some (.str "1,234"), some "1234"⟩⟩ := by
  have h := (resolveCondition_price_operand
      ⟨[⟨1, "symbol", "price"⟩], [⟨2, "number", true⟩],
        fun _ => ⟨"AAPL", "8"⟩, fun _ _ => true,
        fun v _ => match v with
          | .str "1,234.0" => some 1234
          | _ => none,
        fun q _ => toString q.num, fun u => u⟩
      0
      ⟨⟨1, "AAPL"⟩, ⟨2, .str "1,234", none, none⟩⟩
      ⟨1, "symbol", "price"⟩ ⟨2, "number", true⟩
      rfl rfl rfl rfl rfl rfl rfl).2.2 1234 (by decide)
  exact h

theorem resolveConditionsFrom_not_ok (env : ResolutionEnv)
    (conds : List Condition) (start i : Nat) (c : Condition)
    (hc : conds.get? i = some c)
    (he : ∀ c', resolveCondition env (start + i) c ≠ .ok c') :
    ∀ l, resolveConditionsFrom env start conds ≠ .ok l := by
  induction conds generalizing start i with
  | nil => simp at hc
  | cons d rest ih =>
      cases i with
      | zero =>
          rw [List.get?_cons_zero] at hc
          injection hc with hc
          subst hc
          rw [Nat.add_zero] at he
          intro l hcontra
          simp only [resolveConditionsFrom] at hcontra
          cases hr : resolveCondition env start d with
          | ok c' => exact he c' hr
          | error e =>
              rw [hr] at hcontra
              cases hcontra
      | succ j =>
          rw [List.get?_cons_succ] at hc
          have he' : ∀ c', resolveCondition env (start + 1 + j) c ≠ .ok c' := by
            intro c'
            have harith : start + 1 + j = start + (j + 1) := by omega
            rw [harith]
            exact he c'
          intro l hcontra
          simp only [resolveConditionsFrom] at hcontra
          cases hr : resolveCondition env start d with
          | ok c' =>
              rw [hr] at hcontra
              cases hrest : resolveConditionsFrom env (start + 1) rest with
              | ok l' => exact ih (start + 1) j hc he' l' hrest
              | error e =>
                  rw [hrest] at hcontra
                  cases hcontra
          | error e =>
              rw [hr] at hcontra
              cases hcontra

theorem createAlert_eq_of_error (env : ResolutionEnv) (a : CandidateAlert)
    (e : CreateError) (hmeta : metadataPresent env a.conditions = true)
    (hres : resolveConditions env a.conditions = .error e) :
    createAlert env true a =
      (.error e, [.getProperties, .getOperators]
        ++ (instrumentLookupKeys env a.conditions).map
            CreateCall.lookupInstrument) := by
  simp [createAlert, hmeta, hres]

theorem createAlert_eq_of_ok (env : ResolutionEnv) (a : CandidateAlert)
    (l : List Condition) (hmeta : metadataPresent env a.conditions = true)
    (hres : resolveConditions env a.conditions = .ok l) :
    createAlert env true a =
      (.ok ⟨l⟩, [.getProperties, .getOperators]
        ++ (instrumentLookupKeys env a.conditions).map
            CreateCall.lookupInstrument
        ++ [.createAlert ⟨l⟩]) := by
  simp [createAlert, hmeta, hres]

/-- C2.  When a candidate alert passes structural validation and catalog
lookup but contains a condition whose price-formatted literal-numeric
operand fails to parse, `createAlert` rejects and the adapter's
`createAlert` never appears in the call trace; moreover (in full
generality) the adapter's `createAlert` appears in a trace only as its
final call, only when every condition resolved successfully, and only with
the fully resolved alert. -/
theorem createAlert_allOrNothing (env : ResolutionEnv) (a : CandidateAlert)
    (i : Nat) (c : Condition) (property : MetaProperty)
    (operator : MetaOperator)
    (hmeta : metadataPresent env a.conditions = true)
    (hc : a.conditions.get? i = some c)
    (hprop : env.properties.find?
        (fun p => p.property_id = c.property.property_id) = some property)
    (hop : env.operators.find?
        (fun o => o.operator_id = c.operator.operator_id) = some operator)
    (hsym : property.targetType = "symbol")
    (hinst : env.instrumentOk c.property.target_identifier
        (env.instruments c.property.target_identifier) = true)
    (hfmt : property.format = "price")
    (hnum : operator.operand_type = "number")
    (hlit : operator.operand_literal = true)
    (hparse : env.parsePrice (normalizeOperand c.operator.operand)
        (env.baseToUnitCode
          (env.instruments c.property.target_identifier).unitcode) = none) :
    (∃ e, (createAlert env true a).1 = .error e) ∧
      (∀ r, CreateCall.createAlert r ∉ (createAlert env true a).2) ∧
      (∀ (env' : ResolutionEnv) (v : Bool) (a' r : CandidateAlert),
        CreateCall.createAlert r ∈ (createAlert env' v a').2 →
          resolveConditions env' a'.conditions = .ok r.conditions ∧
            (createAlert env' v a').1 = .ok r ∧
            (createAlert env' v a').2.getLast? = some (.createAlert r)) := by
  have hcondfail : ∀ c', resolveCondition env i c ≠ .ok c' := by
    intro c' hcontra
    have : resolveCondition env i c = .error (.priceUnparseable i) :=
      ((resolveCondition_price_operand env i c property operator hprop hop
        hsym hinst hfmt hnum hlit).2.1 hparse).1
    rw [this] at hcontra
    cases hcontra
  have hresolve : ∀ l, resolveConditions env a.conditions ≠ .ok l := by
    intro l
    refine resolveConditionsFrom_not_ok env a.conditions 0 i c hc ?_ l
    intro c'
    rw [Nat.zero_add]
    exact hcondfail c'
  refine ⟨?_, ?_, ?_⟩
  · cases hres : resolveConditions env a.conditions with
    | ok l => exact absurd hres (hresolve l)
    | error e =>
        rw [createAlert_eq_of_error env a e hmeta hres]
        exact ⟨e, rfl⟩
  · intro r
    cases hres : resolveConditions env a.conditions with
    | ok l => exact absurd hres (hresolve l)
    | error e =>
        rw [createAlert_eq_of_error env a e hmeta hres]
        simp
  · intro env' v a' r hmem
    cases v with
    | false =>
        simp [createAlert] at hmem
    | true =>
        cases hmeta' : metadataPresent env' a'.conditions with
        | false =>
            have htr : createAlert env' true a' =
                (.error .metadataMissing,
                  [.getProperties, .getOperators]) := by
              simp [createAlert, hmeta']
            rw [htr] at hmem
            simp at hmem
        | true =>
            cases hres : resolveConditions env' a'.conditions with
            | error e =>
                rw [createAlert_eq_of_error env' a' e hmeta' hres] at hmem
                simp at hmem
            | ok conds' =>
                rw [createAlert_eq_of_ok env' a' conds' hmeta' hres] at hmem
                simp at hmem
                have hr : r = ⟨conds'⟩ := by
                  obtain ⟨rconds⟩ := r
                  simp at hmem
                  rw [hmem]
                subst hr
                refine ⟨rfl, ?_, ?_⟩
                · rw [createAlert_eq_of_ok env' a' conds' hmeta' hres]
                · rw [createAlert_eq_of_ok env' a' conds' hmeta' hres]
                  show ([CreateCall.getProperties, CreateCall.getOperators]
                      ++ (instrumentLookupKeys env' a'.conditions).map
                          CreateCall.lookupInstrument
                      ++ [CreateCall.createAlert ⟨conds'⟩]).getLast?
                    = some (.createAlert ⟨conds'⟩)
                  rw [List.getLast?_concat]

/-- Witness for `createAlert_allOrNothing`: the environment of
`resolveCondition_price_operand_witness` with a parser that rejects
everything; the single-condition alert is rejected and the trace contains
no adapter `createAlert`. -/
theorem createAlert_allOrNothing_witness :
    (∃ e, (createAlert
        ⟨[⟨1, "symbol", "price"⟩], [⟨2, "number", true⟩],
          fun _ => ⟨"AAPL", "8"⟩, fun _ _ => true, fun _ _ => none,
          fun q _ => toString q.num, fun u => u⟩
        true
        ⟨[⟨⟨1, "AAPL"⟩, ⟨2, .str "oops", none, none⟩⟩]⟩).1 = .error e) ∧
      ∀ r, CreateCall.createAlert r ∉ (createAlert
        ⟨[⟨1, "symbol", "price"⟩], [⟨2, "number", true⟩],
          fun _ => ⟨"AAPL", "8"⟩, fun _ _ => true, fun _ _ => none,
          fun q _ => toString q.num, fun u => u⟩
        true
        ⟨[⟨⟨1, "AAPL"⟩, ⟨2, .str "oops", none, none⟩⟩]⟩).2 := by
  have h := createAlert_allOrNothing
      ⟨[⟨1, "symbol", "price"⟩], [⟨2, "number", true⟩],
        fun _ => ⟨"AAPL", "8"⟩, fun _ _ => true, fun _ _ => none,
        fun q _ => toString q.num, fun u => u⟩
      ⟨[⟨⟨1, "AAPL"⟩, ⟨2, .str "oops", none, none⟩⟩]⟩
      0 ⟨⟨1, "AAPL"⟩, ⟨2, .str "oops", none, none⟩⟩
      ⟨1, "symbol", "price"⟩ ⟨2, "number", true⟩
      (by decide) rfl rfl rfl rfl rfl rfl rfl rfl rfl
  exact ⟨h.1, h.2.1⟩

theorem lookupFold_nodup (env : ResolutionEnv) (acc : List String)
    (c : Condition) (hacc : acc.Nodup) : (lookupFold env acc c).Nodup := by
  rw [lookupFold]
  cases symbolOf env c with
  | none => exact hacc
  | some symbol =>
      show (if symbol ∉ acc then acc ++ [symbol] else acc).Nodup
      split
      · next hnot =>
          simp only [List.nodup_append, List.nodup_singleton,
            List.disjoint_singleton]
          exact ⟨hacc, trivial, hnot⟩
      · exact hacc

theorem lookupFold_mem (env : ResolutionEnv) (acc : List String)
    (c : Condition) (s : String) :
    s ∈ lookupFold env acc c ↔
      (s ∈ acc ∨ symbolOf env c = some s) := by
  rw [lookupFold]
  cases hso : symbolOf env c with
  | none =>
      show s ∈ acc ↔ s ∈ acc ∨ (none : Option String) = some s
      simp
  | some symbol =>
      show s ∈ (if symbol ∉ acc then acc ++ [symbol] else acc) ↔
        s ∈ acc ∨ some symbol = some s
      by_cases hmem : symbol ∈ acc
      · rw [if_neg (by simp [hmem])]
        constructor
        · intro h
          exact Or.inl h
        · rintro (h | h)
          · exact h
          · injection h with h
            exact h ▸ hmem
      · rw [if_pos hmem]
        simp only [List.mem_append, List.mem_singleton, Option.some.injEq]
        constructor
        · rintro (h | h)
          · exact Or.inl h
          · exact Or.inr h.symm
        · rintro (h | h)
          · exact Or.inl h
          · exact Or.inr h.symm

theorem instrumentLookupKeys_go (env : ResolutionEnv)
    (conds : List Condition) (acc : List String) (hacc : acc.Nodup) :
    (conds.foldl (lookupFold env) acc).Nodup ∧
      ∀ s, s ∈ conds.foldl (lookupFold env) acc ↔
        (s ∈ acc ∨ s ∈ conditionSymbols env conds) := by
  induction conds generalizing acc with
  | nil => simp [conditionSymbols, hacc]
  | cons c rest ih =>
      rw [List.foldl_cons]
      obtain ⟨hnd, hmem⟩ := ih (lookupFold env acc c)
        (lookupFold_nodup env acc c hacc)
      refine ⟨hnd, ?_⟩
      intro s
      rw [hmem s, lookupFold_mem env acc c s]
      simp only [conditionSymbols, List.mem_filterMap, List.mem_cons]
      constructor
      · rintro ((h | h) | h)
        · exact Or.inl h
        · exact Or.inr ⟨c, Or.inl rfl, h⟩
        · obtain ⟨d, hd, hds⟩ := h
          exact Or.inr ⟨d, Or.inr hd, hds⟩
      · rintro (h | ⟨d, (rfl | hd), hds⟩)
        · exact Or.inl (Or.inl h)
        · exact Or.inl (Or.inr hds)
        · exact Or.inr ⟨d, hd, hds⟩

/-- C7.  During one `createAlert` resolution pass, the instrument-map
construction issues exactly one lookup per distinct symbol among the
symbol-targeted conditions — the key list is duplicate-free and covers
exactly those symbols, so a symbol shared by several conditions is looked
up exactly once — and the call trace of `createAlert` contains exactly
one `lookupInstrument` call per distinct symbol (all conditions for a
symbol then observe the single lookup result `env.instruments s`). -/
theorem instrument_lookup_once_per_symbol (env : ResolutionEnv)
    (conds : List Condition) :
    (instrumentLookupKeys env conds).Nodup ∧
      (∀ s, s ∈ instrumentLookupKeys env conds ↔
        s ∈ conditionSymbols env conds) ∧
      (∀ s, (instrumentLookupKeys env conds).count s =
        if s ∈ conditionSymbols env conds then 1 else 0) ∧
      (∀ (a : CandidateAlert), a.conditions = conds →
        metadataPresent env conds = true →
        ((createAlert env true a).2.filter
            (fun call => match call with
              | .lookupInstrument _ => true
              | _ => false)) =
          (instrumentLookupKeys env conds).map CreateCall.lookupInstrument) := by
  obtain ⟨hnd, hmem⟩ := instrumentLookupKeys_go env conds [] List.nodup_nil
  have hmem' : ∀ s, s ∈ instrumentLookupKeys env conds ↔
      s ∈ conditionSymbols env conds := by
    intro s
    rw [instrumentLookupKeys, hmem s]
    simp
  refine ⟨hnd, hmem', ?_, ?_⟩
  · intro s
    by_cases h : s ∈ conditionSymbols env conds
    · rw [if_pos h]
      exact List.count_eq_one_of_mem hnd ((hmem' s).mpr h)
    · rw [if_neg h]
      exact List.count_eq_zero.mpr (fun hc => h ((hmem' s).mp hc))
  · intro a ha hmeta
    subst ha
    have hfil : ∀ ks : List String,
        ks.filter ((fun call => match call with
          | CreateCall.lookupInstrument _ => true
          | _ => false) ∘ CreateCall.lookupInstrument) = ks := by
      intro ks
      apply List.filter_eq_self.mpr
      intro x _
      rfl
    cases hres : resolveConditions env a.conditions with
    | ok l =>
        rw [createAlert_eq_of_ok env a l hmeta hres]
        simp only [List.filter_append, List.filter_map, hfil]
        simp
    | error e =>
        rw [createAlert_eq_of_error env a e hmeta hres]
        simp only [List.filter_append, List.filter_map, hfil]
        simp

/-- Witness for `instrument_lookup_once_per_symbol`: two conditions on the
same symbol produce a single lookup key, counted once. -/
theorem instrument_lookup_once_per_symbol_witness :
    instrumentLookupKeys
        ⟨[⟨1, "symbol", "price"⟩], [], fun _ => ⟨"AAPL", "8"⟩,
          fun _ _ => true, fun _ _ => none, fun _ _ => "", fun u => u⟩
        [⟨⟨1, "AAPL"⟩, ⟨2, .str "1", none, none⟩⟩,
          ⟨⟨1, "AAPL"⟩, ⟨3, .str "2", none, none⟩⟩] = ["AAPL"] ∧
      (instrumentLookupKeys
        ⟨[⟨1, "symbol", "price"⟩], [], fun _ => ⟨"AAPL", "8"⟩,
          fun _ _ => true, fun _ _ => none, fun _ _ => "", fun u => u⟩
        [⟨⟨1, "AAPL"⟩, ⟨2, .str "1", none, none⟩⟩,
          ⟨⟨1, "AAPL"⟩, ⟨3, .str "2", none, none⟩⟩]).count "AAPL" = 1 := by
  constructor
  · rfl
  · have h := (instrument_lookup_once_per_symbol
      ⟨[⟨1, "symbol", "price"⟩], [], fun _ => ⟨"AAPL", "8"⟩,
        fun _ _ => true, fun _ _ => none, fun _ _ => "", fun u => u⟩
      [⟨⟨1, "AAPL"⟩, ⟨2, .str "1", none, none⟩⟩,
        ⟨⟨1, "AAPL"⟩, ⟨3, .str "2", none, none⟩⟩]).2.2.1 "AAPL"
    rw [h]
    decide

/-! ## Client-side post-filters of retrieveAlerts (source lines 144-177)

The four filter stages each fire only when the corresponding filter field
is *truthy* in JavaScript: `query.filter && query.filter.alert_type`
skips the stage when `alert_type` is the empty string (falsy), and
likewise for `symbol` and `target.identifier`; the `condition.operand`
stage uses a `typeof` test instead, so the empty string does fire it.
JavaScript numbers appearing as `filter.condition.operand` are modelled as
integers, whose `toString` agrees between the two languages. -/

/-- `condition.property.target` of a stored alert. -/
structure StoredTarget where
  type : String
  identifier : String
deriving DecidableEq, Repr

/-- `condition.property` of a stored alert. -/
structure StoredProperty where
  type : String
  target : StoredTarget
deriving DecidableEq, Repr

/-- `condition.operator` of a stored alert; `none` models an absent
operand. -/
structure StoredOperator where
  operand : Option OperandValue
deriving DecidableEq, Repr

/-- A condition of a stored alert. -/
structure StoredCondition where
  property : StoredProperty
  operator : StoredOperator
deriving DecidableEq, Repr

/-- A stored alert, reduced to what the post-filters read. -/
structure StoredAlert where
  alert_type : Option String
  conditions : List StoredCondition
deriving DecidableEq, Repr

/-- `query.filter.condition.operand`: a string or a number. -/
inductive FilterOperand where
  | str (s : String)
  | num (n : Int)
deriving DecidableEq, Repr

/-- JavaScript `toString` on a filter operand. -/
def FilterOperand.toStr : FilterOperand → String
  | .str s => s
  | .num n => toString n

/-- `query.filter.target`. -/
structure TargetFilter where
  identifier : Option String
deriving DecidableEq, Repr

/-- `query.filter.condition`. -/
structure ConditionFilter where
  operand : Option FilterOperand
deriving DecidableEq, Repr

/-- `query.filter`. -/
structure AlertFilter where
  alert_type : Option String
  symbol : Option String
  target : Option TargetFilter
  condition : Option ConditionFilter
deriving DecidableEq, Repr

/-- An alert query, reduced to its filter. -/
structure AlertQuery where
  filter : Option AlertFilter
deriving DecidableEq, Repr

/-- A filter stage: apply the predicate when the stage is active,
otherwise pass the list through unchanged. -/
def guardFilter (active : Option (StoredAlert → Bool))
    (results : List StoredAlert) : List StoredAlert :=
  match active with
  | some p => results.filter p
  | none => results

/-- Activation of the `alert_type` stage (source lines 153-157):
`query.filter && query.filter.alert_type`, the empty string being falsy. -/
def alertTypePred (q : AlertQuery) : Option (StoredAlert → Bool) :=
  match q.filter with
  | none => none
  | some f =>
      match f.alert_type with
      | none => none
      | some t =>
          if t = "" then none
          else some (fun r => r.alert_type == some t)

/-- Activation of the `symbol` stage (source lines 159-163): a condition
matches when its symbol-typed target carries the symbol, or its
symbol-typed property has the symbol as operand. -/
def symbolPred (q : AlertQuery) : Option (StoredAlert → Bool) :=
  match q.filter with
  | none => none
  | some f =>
      match f.symbol with
      | none => none
      | some s =>
          if s = "" then none
          else some (fun r => r.conditions.any (fun c =>
            (c.property.target.type == "symbol"
              && c.property.target.identifier == s)
            || (c.property.type == "symbol"
              && c.operator.operand == some (.str s))))

/-- Activation of the `target.identifier` stage (source lines 165-169). -/
def targetPred (q : AlertQuery) : Option (StoredAlert → Bool) :=
  match q.filter with
  | none => none
  | some f =>
      match f.target with
      | none => none
      | some tf =>
          match tf.identifier with
          | none => none
          | some tid =>
              if tid = "" then none
              else some (fun r => r.conditions.any
                (fun c => c.property.target.identifier == tid))

/-- Activation of the `condition.operand` stage (source lines 171-175):
a `typeof` test admits any string or number, the empty string included;
the stored operand is compared with the filter operand's string form. -/
def operandPred (q : AlertQuery) : Option (StoredAlert → Bool) :=
  match q.filter with
  | none => none
  | some f =>
      match f.condition with
      | none => none
      | some cf =>
          match cf.operand with
          | none => none
          | some v =>
              some (fun r => r.conditions.any
                (fun c => c.operator.operand == some (.str v.toStr)))

/-- `retrieveAlerts` (source lines 144-177), reduced to its client-side
post-filtering: the adapter's result list run through the four stages in
source order. -/
def retrieveAlerts (q : AlertQuery) (adapterResults : List StoredAlert) :
    List StoredAlert :=
  guardFilter (operandPred q)
    (guardFilter (targetPred q)
      (guardFilter (symbolPred q)
        (guardFilter (alertTypePred q) adapterResults)))

theorem guardFilter_subset (o : Option (StoredAlert → Bool))
    (res : List StoredAlert) (a : StoredAlert) (h : a ∈ guardFilter o res) :
    a ∈ res := by
  cases o with
  | none => exact h
  | some p => exact List.mem_of_mem_filter h

theorem guardFilter_prop (p : StoredAlert → Bool) (res : List StoredAlert)
    (a : StoredAlert) (h : a ∈ guardFilter (some p) res) : p a = true :=
  List.of_mem_filter h

/-- Counterexample to C10 as stated: a query carrying
`filter.alert_type = ""` (present but falsy) skips the stage, so an alert
of a different type survives in the result. -/
theorem retrieveAlerts_falsy_alert_type :
    retrieveAlerts ⟨some ⟨some "", none, none, none⟩⟩
        [⟨some "price", []⟩] = [⟨some "price", []⟩] ∧
      ¬ ∀ a ∈ retrieveAlerts ⟨some ⟨some "", none, none, none⟩⟩
          [⟨some "price", []⟩], a.alert_type = some "" := by
  refine ⟨rfl, ?_⟩
  intro h
  have := h ⟨some "price", []⟩ (by rw [show retrieveAlerts
      ⟨some ⟨some "", none, none, none⟩⟩ [⟨some "price", []⟩]
      = [⟨some "price", []⟩] from rfl]; exact List.mem_singleton.mpr rfl)
  simp at this

/-- C10 (amended: the `alert_type`, `symbol` and `target.identifier`
stages fire only for non-empty strings, since the source tests them for
JavaScript truthiness).  Every alert surviving `retrieveAlerts` satisfies
each active filter: the carried non-empty `alert_type` matches; some
condition carries the non-empty `symbol` as target identifier or operand;
some condition targets the non-empty `target.identifier`; some condition's
operand equals the string form of `condition.operand` (string or number,
empty string included); and a wholly absent filter returns the adapter's
list unchanged. -/
theorem retrieveAlerts_postfilter (q : AlertQuery)
    (res : List StoredAlert) :
    (∀ f t, q.filter = some f → f.alert_type = some t → t ≠ "" →
        ∀ a ∈ retrieveAlerts q res, a.alert_type = some t) ∧
      (∀ f s, q.filter = some f → f.symbol = some s → s ≠ "" →
        ∀ a ∈ retrieveAlerts q res, ∃ c ∈ a.conditions,
          c.property.target.identifier = s
            ∨ c.operator.operand = some (.str s)) ∧
      (∀ f tf tid, q.filter = some f → f.target = some tf →
          tf.identifier = some tid → tid ≠ "" →
        ∀ a ∈ retrieveAlerts q res, ∃ c ∈ a.conditions,
          c.property.target.identifier = tid) ∧
      (∀ f cf v, q.filter = some f → f.condition = some cf →
          cf.operand = some v →
        ∀ a ∈ retrieveAlerts q res, ∃ c ∈ a.conditions,
          c.operator.operand = some (.str v.toStr)) ∧
      (q.filter = none → retrieveAlerts q res = res) ∧
      (∀ f, q.filter = some f → f.alert_type = none → f.symbol = none →
        f.target = none → f.condition = none → retrieveAlerts q res = res) := by
  refine ⟨?_, ?_, ?_, ?_, ?_, ?_⟩
  · intro f t hf ht hne a ha
    have h1 : a ∈ guardFilter (alertTypePred q) res :=
      guardFilter_subset _ _ a (guardFilter_subset _ _ a
        (guardFilter_subset _ _ a ha))
    have hact : alertTypePred q = some (fun r => r.alert_type == some t) := by
      simp [alertTypePred, hf, ht, hne]
    rw [hact] at h1
    have := guardFilter_prop _ _ _ h1
    simpa using this
  · intro f s hf hs hne a ha
    have h1 : a ∈ guardFilter (symbolPred q)
        (guardFilter (alertTypePred q) res) :=
      guardFilter_subset _ _ a (guardFilter_subset _ _ a ha)
    have hact : symbolPred q = some (fun r => r.conditions.any (fun c =>
        (c.property.target.type == "symbol"
          && c.property.target.identifier == s)
        || (c.property.type == "symbol"
          && c.operator.operand == some (.str s)))) := by
      simp [symbolPred, hf, hs, hne]
    rw [hact] at h1
    have hp := guardFilter_prop _ _ _ h1
    simp only [List.any_eq_true, Bool.or_eq_true, Bool.and_eq_true,
      beq_iff_eq] at hp
    obtain ⟨c, hc, hcase⟩ := hp
    refine ⟨c, hc, ?_⟩
    rcases hcase with ⟨_, h⟩ | ⟨_, h⟩
    · exact Or.inl h
    · exact Or.inr h
  · intro f tf tid hf htf htid hne a ha
    have h1 : a ∈ guardFilter (targetPred q)
        (guardFilter (symbolPred q)
          (guardFilter (alertTypePred q) res)) :=
      guardFilter_subset _ _ a ha
    have hact : targetPred q = some (fun r => r.conditions.any
        (fun c => c.property.target.identifier == tid)) := by
      simp [targetPred, hf, htf, htid, hne]
    rw [hact] at h1
    have hp := guardFilter_prop _ _ _ h1
    simp only [List.any_eq_true, beq_iff_eq] at hp
    exact hp
  · intro f cf v hf hcf hv a ha
    have hact : operandPred q = some (fun r => r.conditions.any
        (fun c => c.operator.operand == some (.str v.toStr))) := by
      simp [operandPred, hf, hcf, hv]
    rw [retrieveAlerts, hact] at ha
    have hp := guardFilter_prop _ _ _ ha
    simp only [List.any_eq_true, beq_iff_eq] at hp
    exact hp
  · intro hf
    simp [retrieveAlerts, guardFilter, alertTypePred, symbolPred,
      targetPred, operandPred, hf]
  · intro f hf h1 h2 h3 h4
    simp [retrieveAlerts, guardFilter, alertTypePred, symbolPred,
      targetPred, operandPred, hf, h1, h2, h3, h4]

/-- Witness for `retrieveAlerts_postfilter`: a non-empty `alert_type`
filter keeps exactly the matching alert. -/
theorem retrieveAlerts_postfilter_witness :
    ∀ a ∈ retrieveAlerts ⟨some ⟨some "price", none, none, none⟩⟩
        [⟨some "price", []⟩, ⟨some "news", []⟩], a.alert_type = some "price" := by
  exact (retrieveAlerts_postfilter ⟨some ⟨some "price", none, none, none⟩⟩
      [⟨some "price", []⟩, ⟨some "news", []⟩]).1
    ⟨some "price", none, none, none⟩ "price" rfl rfl (by decide)

/-! ## Property tree builder (AlertManager.getPropertyTree, lines 893-961)

A pure transform.  `localeCompare` on the descriptions is modelled by the
lexicographic order on strings, with which it agrees on the ASCII
descriptions the catalogs use; the required-stable JavaScript sort is
modelled by insertion sort, which is stable for the same total preorder.
The source recurses into children after sorting a level; `sortNode` below
recurses first, which yields the same tree because sorting reads only the
`description` and `sortOrder` fields, which the recursion preserves. -/

/-- A catalog property as read by the tree builder. -/
structure TreeProperty where
  category : List String
  description : String
  descriptionShort : Option String
  sortOrder : Int
deriving DecidableEq, Repr

/-- The description selector of source lines 894-900. -/
def descriptionSelector (short : Bool) (p : TreeProperty) : Option String :=
  if short then p.descriptionShort else some p.description

/-- The description path of source line 903:
`(property.category || []).concat(descriptionSelector(property) || [])`,
a falsy (absent or empty) selected description contributing nothing. -/
def descriptionPath (short : Bool) (p : TreeProperty) : List String :=
  p.category ++
    (match descriptionSelector short p with
      | some d => if d = "" then [] else [d]
      | none => [])

/-- A node of the property tree: description, sort order (captured from
the property that created the node, per the two identical branches of
source lines 914-920), children, and the property attached to the final
path node. -/
inductive PNode : Type where
  | mk (description : String) (sortOrder : Int) (items : List PNode)
      (item : Option TreeProperty)

def PNode.description : PNode → String
  | .mk d _ _ _ => d

def PNode.sortOrder : PNode → Int
  | .mk _ so _ _ => so

def PNode.items : PNode → List PNode
  | .mk _ _ items _ => items

def PNode.item : PNode → Option TreeProperty
  | .mk _ _ _ it => it

/-- Find-or-create of source lines 911-928: apply `f` to the first child
whose description matches, or to a freshly created child appended at the
end. -/
def upsertChild (d : String) (f : PNode → PNode) (fresh : PNode) :
    List PNode → List PNode
  | [] => [f fresh]
  | c :: cs =>
      if c.description = d then f c :: cs else c :: upsertChild d f fresh cs

/-- The `forEach` walk of source lines 908-933 over one property's
description path: descend through (or create) one node per path segment,
a created node capturing the property's sort order, and attach the
property to the final node. -/
def insertPath : List String → TreeProperty → List PNode → List PNode
  | [], _, items => items
  | d :: rest, p, items =>
      upsertChild d
        (fun c =>
          match rest with
          | [] => .mk c.description c.sortOrder c.items (some p)
          | _ :: _ =>
              .mk c.description c.sortOrder (insertPath rest p c.items) c.item)
        (.mk d p.sortOrder [] none) items

/-- The anonymous root object of the reduce at source line 902. -/
def emptyRoot : PNode := .mk "" 0 [] none

/-- One reduce step: insert one property into the tree under the root; an
empty description path attaches the property to the root itself. -/
def insertProperty (root : PNode) (short : Bool) (p : TreeProperty) :
    PNode :=
  match descriptionPath short p with
  | [] => .mk root.description root.sortOrder root.items (some p)
  | d :: rest =>
      .mk root.description root.sortOrder
        (insertPath (d :: rest) p root.items) root.item

/-- The reduce of source lines 902-936. -/
def buildTree (props : List TreeProperty) (short : Bool) : PNode :=
  props.foldl (fun t p => insertProperty t short p) emptyRoot

/-- The sibling order of source lines 943-951: ascending numeric sort
order, ties broken by comparing descriptions. -/
def nodeLE (a b : PNode) : Prop :=
  a.sortOrder < b.sortOrder
    ∨ (a.sortOrder = b.sortOrder ∧ a.description ≤ b.description)

instance : DecidableRel nodeLE := fun a b => by
  unfold nodeLE
  infer_instance

instance : IsTotal PNode nodeLE where
  total a b := by
    unfold nodeLE
    rcases lt_trichotomy a.sortOrder b.sortOrder with h | h | h
    · exact Or.inl (Or.inl h)
    · rcases le_total a.description b.description with hd | hd
      · exact Or.inl (Or.inr ⟨h, hd⟩)
      · exact Or.inr (Or.inr ⟨h.symm, hd⟩)
    · exact Or.inr (Or.inl h)

instance : IsTrans PNode nodeLE where
  trans a b c hab hbc := by
    unfold nodeLE at hab hbc ⊢
    rcases hab with h1 | ⟨e1, d1⟩
    · rcases hbc with h2 | ⟨e2, d2⟩
      · exact Or.inl (h1.trans h2)
      · exact Or.inl (lt_of_lt_of_le h1 (le_of_eq e2))
    · rcases hbc with h2 | ⟨e2, d2⟩
      · exact Or.inl (lt_of_le_of_lt (le_of_eq e1) h2)
      · exact Or.inr ⟨e1.trans e2, d1.trans d2⟩

mutual

/-- `sortTree` of source lines 938-958: sort every level of the tree by
`nodeLE`. -/
def sortNode : PNode → PNode
  | .mk d so items it =>
      .mk d so (List.insertionSort nodeLE (sortItems items)) it

def sortItems : List PNode → List PNode
  | [] => []
  | c :: cs => sortNode c :: sortItems cs

end

/-- `getPropertyTree` (source lines 893-961): build the tree from the
property list, sort every level, and return the root's children. -/
def getPropertyTree (props : List TreeProperty) (short : Bool) :
    List PNode :=
  (sortNode (buildTree props short)).items

/-- Every level of the tree is sorted by the sibling order. -/
inductive TreeSorted : PNode → Prop where
  | mk : ∀ (d : String) (so : Int) (items : List PNode)
      (it : Option TreeProperty),
      List.Sorted nodeLE items → (∀ c ∈ items, TreeSorted c) →
      TreeSorted (.mk d so items it)

theorem sortItems_eq_map : ∀ l : List PNode, sortItems l = l.map sortNode
  | [] => by rw [sortItems, List.map_nil]
  | c :: cs => by rw [sortItems, List.map_cons, sortItems_eq_map cs]

theorem sortNode_sorted_aux :
    ∀ (k : Nat) (n : PNode), sizeOf n ≤ k → TreeSorted (sortNode n) := by
  intro k
  induction k with
  | zero =>
      intro n hn
      obtain ⟨d, so, items, it⟩ := n
      simp only [PNode.mk.sizeOf_spec] at hn
      omega
  | succ k ih =>
      intro n hn
      obtain ⟨d, so, items, it⟩ := n
      rw [sortNode]
      refine TreeSorted.mk d so _ it (List.sorted_insertionSort nodeLE _) ?_
      intro c hc
      rw [List.mem_insertionSort] at hc
      rw [sortItems_eq_map] at hc
      obtain ⟨c', hc', rfl⟩ := List.mem_map.mp hc
      have hlt : sizeOf c' < sizeOf items := List.sizeOf_lt_of_mem hc'
      have hsz : sizeOf items < sizeOf (PNode.mk d so items it) := by
        simp [PNode.mk.sizeOf_spec]
        omega
      exact ih c' (by omega)

theorem sortNode_sorted (n : PNode) : TreeSorted (sortNode n) :=
  sortNode_sorted_aux (sizeOf n) n le_rfl

/-- C9.  `getPropertyTree` is a pure function (deterministic by
construction); at every level of its output the sibling nodes are sorted
by ascending numeric sort order with the description order as tie-break,
and on the two-property example the children of node `"A"` come out in
the order `[Y, X]`. -/
theorem getPropertyTree_sorted (props : List TreeProperty) (short : Bool) :
    (List.Sorted nodeLE (getPropertyTree props short) ∧
        ∀ t ∈ getPropertyTree props short, TreeSorted t) ∧
      getPropertyTree
          [⟨["A"], "X", none, 2⟩, ⟨["A"], "Y", none, 1⟩] false =
        [.mk "A" 2
          [.mk "Y" 1 [] (some ⟨["A"], "Y", none, 1⟩),
            .mk "X" 2 [] (some ⟨["A"], "X", none, 2⟩)] none] := by
  constructor
  · have h := sortNode_sorted (buildTree props short)
    rw [getPropertyTree]
    cases hs : sortNode (buildTree props short) with
    | mk d so items it =>
        rw [hs] at h
        cases h with
        | mk _ _ _ _ hsorted hmem =>
            exact ⟨hsorted, hmem⟩
  · rw [getPropertyTree]
    rw [show buildTree
        [⟨["A"], "X", none, 2⟩, ⟨["A"], "Y", none, 1⟩] false =
      .mk "" 0
        [.mk "A" 2
          [.mk "X" 2 [] (some ⟨["A"], "X", none, 2⟩),
            .mk "Y" 1 [] (some ⟨["A"], "Y", none, 1⟩)] none] none from rfl]
    simp only [sortNode, sortItems]
    simp [List.insertionSort, List.orderedInsert, nodeLE, PNode.items,
      PNode.sortOrder, PNode.description]

/-- Witness for `getPropertyTree_sorted`: the node `"A"` produced by the
two-property example is sorted at every level. -/
theorem getPropertyTree_sorted_witness :
    TreeSorted (.mk "A" 2
      [.mk "Y" 1 [] (some ⟨["A"], "Y", none, 1⟩),
        .mk "X" 2 [] (some ⟨["A"], "X", none, 2⟩)] none) := by
  have h := getPropertyTree_sorted
    [⟨["A"], "X", none, 2⟩, ⟨["A"], "Y", none, 1⟩] false
  refine h.1.2 _ ?_
  rw [h.2]
  exact List.mem_singleton.mpr rfl

end AlertsClient
